import Mathlib

/-!
Shallow embedding of the pitch-detection and tuning-decision pipeline of the
Tuner---EPICS-RPVI repository, together with proofs checking the repository's
natural-language specification against the code.

The repository contains several revisions of the same C modules:
  * `src/src/string_detection.c` (first revision: integer note table,
    tolerance 2 cents, `UNKNOWN` override for non-positive frequencies);
  * `Guitar Unit Testing Files/string_detection.c` (decimal note table with
    duplicated rows, tolerance 5 cents, no `UNKNOWN` override) — embedded
    here with a `_utf` suffix;
  * `src/src/audio_sequencer.c` (beep-interval table);
  * the audio-processing revisions in `src/unnamed/part_011` (real radix-2
    FFT pipeline) and `src/unnamed/part_010` (mock FFT, embedded with a
    `_mock` / `_v0` suffix).

C doubles/floats are modelled as real numbers (ℚ where the code only does
field operations and comparisons on int16 data), machine integers as ℤ/ℕ.
Uninitialised C out-parameters (`*closest_freq` when the scan never updates)
are modelled by threading an explicit arbitrary initial value `u` through the
functions, so every theorem quantifying over `u` is independent of that
garbage value.
-/

namespace Tuner

/-- Standard guitar string reference frequencies, indexed 1 (high E, 329.63)
to 6 (low E, 82.41), from `string_detection.h` (`GUITAR_STRING_*_FREQ`). -/
def string_frequencies : List ℝ :=
  [329.63, 246.94, 196.00, 146.83, 110.00, 82.41]

/-- Entry `i` (0-based) of the string table, as read by the C loop. -/
noncomputable def sfreq (i : ℕ) : ℝ := string_frequencies.getD i 0

/-- Note table of the first revision of `src/src/string_detection.c`
(`guitar_notes`): frequency, note name, string number, octave. -/
def guitar_notes : List (ℝ × String × ℤ × ℤ) :=
  [(82, "E", 6, 2), (87, "F", 6, 2), (93, "F#", 6, 2), (98, "G", 6, 2),
   (104, "G#", 6, 2), (110, "A", 5, 2), (116, "A#", 5, 2), (124, "B", 5, 2),
   (131, "C", 5, 3), (139, "C#", 5, 3), (147, "D", 4, 3), (156, "D#", 4, 3),
   (165, "E", 4, 3), (175, "F", 4, 3), (185, "F#", 4, 3), (196, "G", 3, 3),
   (208, "G#", 3, 3), (220, "A", 3, 3), (233, "A#", 3, 3), (247, "B", 2, 3),
   (262, "C", 2, 4), (278, "C#", 2, 4), (294, "D", 2, 4), (311, "D#", 2, 4),
   (330, "E", 1, 4), (349, "F", 1, 4), (370, "F#", 1, 4), (392, "G", 1, 4),
   (415, "G#", 1, 4), (440, "A", 1, 4), (466, "A#", 1, 4), (494, "B", 1, 4),
   (523, "C", 1, 5)]

/-- Note table of `Guitar Unit Testing Files/string_detection.c`
(`guitar_notes`), including its duplicated low-string rows. -/
def guitar_notes_utf : List (ℝ × String × ℤ × ℤ) :=
  [(82.41, "E", 6, 2), (87.31, "F", 6, 2), (92.50, "F#", 6, 2),
   (98.00, "G", 6, 2), (103.83, "G#", 6, 2),
   (87.31, "F", 6, 2), (92.50, "F#", 6, 2), (98.00, "G", 6, 2),
   (103.83, "G#", 6, 2),
   (87.31, "F", 6, 2), (92.50, "F#", 6, 2), (98.00, "G", 6, 2),
   (103.83, "G#", 6, 2),
   (110.00, "A", 5, 2), (116.54, "A#", 5, 2), (123.47, "B", 5, 2),
   (130.81, "C", 5, 3), (138.59, "C#", 5, 3),
   (146.83, "D", 4, 3), (155.56, "D#", 4, 3), (164.81, "E", 4, 3),
   (174.61, "F", 4, 3), (185.00, "F#", 4, 3),
   (196.00, "G", 3, 3), (207.65, "G#", 3, 3), (220.00, "A", 3, 3),
   (233.08, "A#", 3, 3),
   (246.94, "B", 2, 3), (261.63, "C", 2, 4), (277.18, "C#", 2, 4),
   (293.66, "D", 2, 4), (311.13, "D#", 2, 4),
   (329.63, "E", 1, 4), (349.23, "F", 1, 4), (369.99, "F#", 1, 4),
   (392.00, "G", 1, 4), (415.30, "G#", 1, 4), (440.00, "A", 1, 4),
   (466.16, "A#", 1, 4), (493.88, "B", 1, 4), (523.25, "C", 1, 5)]

/-- Frequency of entry `i` of a note table. -/
noncomputable def nfreq (tbl : List (ℝ × String × ℤ × ℤ)) (i : ℕ) : ℝ :=
  (tbl.getD i (0, "?", 0, 0)).1

/-- `calculate_cents_offset` from `string_detection.c` (identical in every
revision): `1200 * log2(detected/target)` for positive inputs, `0.0` when
either input is `<= 0`. -/
noncomputable def calculate_cents_offset (detected_freq target_freq : ℝ) : ℝ :=
  if target_freq ≤ 0 ∨ detected_freq ≤ 0 then 0
  else 1200 * Real.logb 2 (detected_freq / target_freq)

/-- `get_tuning_direction` from `src/src/string_detection.c`
(`TUNING_TOLERANCE = 2.0`). -/
noncomputable def get_tuning_direction (cents : ℝ) : String :=
  if cents < -2 then "UP"
  else if cents > 2 then "DOWN"
  else "IN_TUNE"

/-- `get_tuning_direction` from `Guitar Unit Testing Files/string_detection.c`
(`TUNING_TOLERANCE = 5.0`). -/
noncomputable def get_tuning_direction_utf (cents : ℝ) : String :=
  if cents < -5 then "UP"
  else if cents > 5 then "DOWN"
  else "IN_TUNE"

/-- One iteration of the linear nearest-entry scans in `string_detection.c`:
update the running `(min_diff, best)` state if `dist i < min_diff`. -/
noncomputable def minStep {β : Type} (dist : ℕ → ℝ) (out : ℕ → β)
    (acc : ℝ × β) (i : ℕ) : ℝ × β :=
  if dist i < acc.1 then (dist i, out i) else acc

/-- `find_closest_string`: scans the 6 string frequencies with initial
`min_diff = 1000.0`, `closest_string = -1`; `u` stands for the value of the
caller's uninitialised `*closest_freq` out-parameter. -/
noncomputable def find_closest_string (f u : ℝ) : ℤ × ℝ :=
  ((List.range 6).foldl
    (minStep (fun i => |f - sfreq i|) (fun i => ((i : ℤ) + 1, sfreq i)))
    (1000, (-1, u))).2

/-- `find_closest_note` over a given note table, with initial
`min_diff = 1000.0`, `closest_index = -1`; `u` and `su` stand for the values
of the uninitialised `*closest_freq` / `*string_num` out-parameters. -/
noncomputable def find_closest_note_tbl (tbl : List (ℝ × String × ℤ × ℤ))
    (f u : ℝ) (su : ℤ) : ℤ × ℝ × ℤ :=
  ((List.range tbl.length).foldl
    (minStep (fun i => |f - nfreq tbl i|)
      (fun i => ((i : ℤ), nfreq tbl i, (tbl.getD i (0, "?", 0, 0)).2.2.1)))
    (1000, (-1, u, su))).2

/-- `find_closest_note` of the first `src/src/string_detection.c` revision. -/
noncomputable def find_closest_note (f u : ℝ) (su : ℤ) : ℤ × ℝ × ℤ :=
  find_closest_note_tbl guitar_notes f u su

/-- `TuningResult` from `string_detection.h`. -/
structure TuningResult where
  detected_string : ℤ
  target_string : ℤ
  cents_offset : ℝ
  direction : String
  detected_frequency : ℝ
  target_frequency : ℝ
  note_name : String
  octave : ℤ

/-- Note-name/octave display fields shared by the `analyze_tuning*`
functions: table row of the closest-note index, or the `("?", 0)` fallback. -/
noncomputable def noteDisplay (tbl : List (ℝ × String × ℤ × ℤ))
    (idx : ℤ) : String × ℤ :=
  if 0 ≤ idx then
    ((tbl.getD idx.toNat (0, "?", 0, 0)).2.1, (tbl.getD idx.toNat (0, "?", 0, 0)).2.2.2)
  else ("?", 0)

/-- `analyze_tuning_auto` from `src/src/string_detection.c` (first revision):
auto-detect mode with the `detected_frequency <= 0 → "UNKNOWN"` override.
`u` is the uninitialised local `target_freq` before the scan writes it. -/
noncomputable def analyze_tuning_auto (f u : ℝ) : TuningResult :=
  let fcs := find_closest_string f u
  let cents := calculate_cents_offset f fcs.2
  let note := find_closest_note f 0 0
  { detected_string := fcs.1
    target_string := fcs.1
    cents_offset := cents
    direction := if f ≤ 0 then "UNKNOWN" else get_tuning_direction cents
    detected_frequency := f
    target_frequency := fcs.2
    note_name := (noteDisplay guitar_notes note.1).1
    octave := (noteDisplay guitar_notes note.1).2 }

/-- `analyze_tuning` from `src/src/string_detection.c` (first revision):
targeted mode; any `target_string` outside 1..6 falls back to auto mode. -/
noncomputable def analyze_tuning (f : ℝ) (target_string : ℤ) (u : ℝ) :
    TuningResult :=
  if target_string < 1 ∨ 6 < target_string then analyze_tuning_auto f u
  else
    let tf := sfreq (target_string - 1).toNat
    let fcs := find_closest_string f u
    let cents := calculate_cents_offset f tf
    let note := find_closest_note f 0 0
    { detected_string := fcs.1
      target_string := target_string
      cents_offset := cents
      direction := if f ≤ 0 then "UNKNOWN" else get_tuning_direction cents
      detected_frequency := f
      target_frequency := tf
      note_name := (noteDisplay guitar_notes note.1).1
      octave := (noteDisplay guitar_notes note.1).2 }

/-- `analyze_tuning_auto` from `Guitar Unit Testing Files/string_detection.c`:
same shape but the direction is always `get_tuning_direction(cents)` — there
is no `detected_frequency <= 0` override in this revision. -/
noncomputable def analyze_tuning_auto_utf (f u : ℝ) : TuningResult :=
  let fcs := find_closest_string f u
  let cents := calculate_cents_offset f fcs.2
  let note := find_closest_note_tbl guitar_notes_utf f 0 0
  { detected_string := fcs.1
    target_string := fcs.1
    cents_offset := cents
    direction := get_tuning_direction_utf cents
    detected_frequency := f
    target_frequency := fcs.2
    note_name := (noteDisplay guitar_notes_utf note.1).1
    octave := (noteDisplay guitar_notes_utf note.1).2 }

/-- `analyze_tuning` from `Guitar Unit Testing Files/string_detection.c`:
targeted mode of that revision (tolerance 5, no `UNKNOWN` override). -/
noncomputable def analyze_tuning_utf (f : ℝ) (target_string : ℤ) (u : ℝ) :
    TuningResult :=
  if target_string < 1 ∨ 6 < target_string then analyze_tuning_auto_utf f u
  else
    let tf := sfreq (target_string - 1).toNat
    let fcs := find_closest_string f u
    let cents := calculate_cents_offset f tf
    let note := find_closest_note_tbl guitar_notes_utf f 0 0
    { detected_string := fcs.1
      target_string := target_string
      cents_offset := cents
      direction := get_tuning_direction_utf cents
      detected_frequency := f
      target_frequency := tf
      note_name := (noteDisplay guitar_notes_utf note.1).1
      octave := (noteDisplay guitar_notes_utf note.1).2 }

/-! ## Beep-rate mapping (`src/src/audio_sequencer.c`) -/

/-- `beep_rates` table: `(max_cents threshold, beep interval in ms)`, walked
top to bottom. The final `(0.0, 0)` row means "in tune, no beep". -/
def beep_rates : List (ℝ × ℕ) :=
  [(100, 100), (75, 150), (50, 200), (40, 300),
   (25, 500), (15, 800), (5, 1200), (0, 0)]

/-- The threshold-walking loop of `calculate_beep_interval`: return the
interval of the first row whose threshold the absolute offset meets or
exceeds, `none` if the loop falls through. -/
noncomputable def beepWalk (abs_cents : ℝ) : List (ℝ × ℕ) → Option ℕ
  | [] => none
  | r :: rs => if r.1 ≤ abs_cents then some r.2 else beepWalk abs_cents rs

/-- `calculate_beep_interval` from `src/src/audio_sequencer.c`: walk the
table on `fabs(cents_offset)`; the post-loop fallback returns 0. -/
noncomputable def calculate_beep_interval (cents_offset : ℝ) : ℕ :=
  (beepWalk |cents_offset| beep_rates).getD 0

/-! ## Gain and FFT pipeline (`src/unnamed/part_011`, `src/unnamed/part_010`) -/

/-- Truncation toward zero, the semantics of C's float→integer cast. -/
def ratTruncZ (q : ℚ) : ℤ :=
  if q < 0 then -(⌊-q⌋) else ⌊q⌋

/-- Two's-complement wraparound of an integer to the int16 range, the
semantics of C's narrowing cast to `int16_t`. -/
def i16wrap (z : ℤ) : ℤ :=
  (z + 32768) % 65536 - 32768

/-- `apply_gain` from `src/unnamed/part_011`: scale each sample by
`gain_factor` in a 32-bit intermediate, then saturate to the int16 range. -/
def apply_gain (samples : List ℤ) (gain_factor : ℚ) : List ℤ :=
  samples.map fun (s : ℤ) =>
    let scaled := ratTruncZ ((s : ℚ) * gain_factor)
    if 32767 < scaled then 32767
    else if scaled < -32768 then -32768
    else scaled

/-- `apply_gain` from `src/unnamed/part_010`: the scaled value is cast to
`int16_t` (wrapping) *before* the range checks, which are therefore dead. -/
def apply_gain_v0 (samples : List ℤ) (gain_factor : ℚ) : List ℤ :=
  samples.map fun (s : ℤ) =>
    let x := i16wrap (ratTruncZ ((s : ℚ) * gain_factor))
    if 32767 < x then 32767
    else if x < -32768 then -32768
    else x

/-- `peak_magnitude`-update of the search loop of `find_peak_frequency`:
the running `(peak_bin, peak_magnitude)` pair is replaced exactly when the
new magnitude is strictly greater. -/
noncomputable def peakStep (mag : ℕ → ℝ) (acc : ℕ × ℝ) (i : ℕ) : ℕ × ℝ :=
  if acc.2 < mag i then (i, mag i) else acc

/-- `search_limit` of `find_peak_frequency`: `(num_bins*2000)/sampling_rate`
in integer arithmetic, capped at `num_bins`. -/
def search_limit (num_bins sampling_rate : ℕ) : ℕ :=
  min (num_bins * 2000 / sampling_rate) num_bins

/-- The peak-search loop `for (i = 1; i < search_limit; i++)` of
`find_peak_frequency`, starting from `(peak_bin, peak_magnitude) = (0, 0)`. -/
noncomputable def peakScan (mag : ℕ → ℝ) (limit : ℕ) : ℕ × ℝ :=
  (List.range' 1 (limit - 1)).foldl (peakStep mag) (0, 0)

/-- `find_peak_frequency` from `src/unnamed/part_011`: scan bins
`1 .. search_limit-1`, gate the winning magnitude at `0.5`, and convert the
winning bin with `peak_bin * sampling_rate / FFT_SIZE` (`FFT_SIZE = 256`). -/
noncomputable def find_peak_frequency (mag : ℕ → ℝ)
    (num_bins sampling_rate : ℕ) : ℝ :=
  let p := peakScan mag (search_limit num_bins sampling_rate)
  if p.2 < 0.5 then 0
  else (p.1 : ℝ) * (sampling_rate : ℝ) / 256

/-- 8-bit bit-reversal used by `bit_reverse_permute` (`log2(256) = 8`). -/
def bitrev8 (i : ℕ) : ℕ :=
  (List.range 8).foldl (fun acc k => acc * 2 + i / 2 ^ k % 2) 0

/-- One butterfly stage of `simple_radix2_fft`, as a pure transformation of
the `(real, imag)` spectrum functions. For an index `k`, `j = k % stride`
decides whether `k` is the `idx_a` (`j < stage_size`) or `idx_b` half of its
butterfly; twiddle factors are `cos`/`sin` of `-2π·j/stage_stride`. -/
noncomputable def butterflyStage (s : ℕ) (x : (ℕ → ℝ) × (ℕ → ℝ)) :
    (ℕ → ℝ) × (ℕ → ℝ) :=
  let size := 2 ^ s
  let stride := 2 ^ (s + 1)
  let re := x.1
  let im := x.2
  (fun k =>
    let j := k % stride
    if j < size then
      let ang := -(2 * Real.pi * j) / stride
      re k + (Real.cos ang * re (k + size) - Real.sin ang * im (k + size))
    else
      let ang := -(2 * Real.pi * (j - size)) / stride
      re (k - size) - (Real.cos ang * re k - Real.sin ang * im k),
   fun k =>
    let j := k % stride
    if j < size then
      let ang := -(2 * Real.pi * j) / stride
      im k + (Real.cos ang * im (k + size) + Real.sin ang * re (k + size))
    else
      let ang := -(2 * Real.pi * (j - size)) / stride
      im (k - size) - (Real.cos ang * im k + Real.sin ang * re k))

/-- `simple_radix2_fft` from `src/unnamed/part_011`: bit-reversal
permutation followed by the 8 butterfly stages of a 256-point FFT. -/
noncomputable def simple_radix2_fft (re im : ℕ → ℝ) : (ℕ → ℝ) × (ℕ → ℝ) :=
  (List.range 8).foldl (fun x s => butterflyStage s x)
    (fun k => re (bitrev8 k), fun k => im (bitrev8 k))

/-- Maximum absolute sample amplitude, as computed by the amplitude-gate
loop at the top of both `apply_fft` revisions. -/
def maxAmp (samples : List ℤ) : ℕ :=
  samples.foldl (fun m s => max m s.natAbs) 0

/-- Steps 2–5 of `apply_fft` from `src/unnamed/part_011`: normalise to
[-1, 1], zero-pad to 256, Hann-window, run the radix-2 FFT, take magnitudes
of the first 128 bins, and search for the peak at `SAMPLE_RATE = 10000`. -/
noncomputable def fft_pipeline (samples : List ℤ) : ℝ :=
  let n := min samples.length 256
  let re0 : ℕ → ℝ := fun i => if i < n then (samples.getD i 0 : ℝ) / 32768 else 0
  let rew : ℕ → ℝ := fun i =>
    re0 i * (0.5 * (1 - Real.cos (2 * Real.pi * i / 255)))
  let x := simple_radix2_fft rew fun _ => 0
  find_peak_frequency
    (fun i => Real.sqrt (x.1 i * x.1 i + x.2 i * x.2 i)) 128 10000

/-- `apply_fft` from `src/unnamed/part_011`: early-outs for an uninitialised
FFT and an empty block, then the `MIN_AMPLITUDE = 50` signal gate, then the
real FFT pipeline. -/
noncomputable def apply_fft (fft_initialized : Bool) (samples : List ℤ) : ℝ :=
  if fft_initialized = false then 0
  else if samples = [] then 0
  else if maxAmp samples < 50 then 0
  else fft_pipeline samples

/-- Demo table of the mock `apply_fft` in `src/unnamed/part_010`. -/
def demo_frequencies : List ℝ :=
  [82.41, 110.00, 146.83, 196.00, 246.94, 329.63]

/-- `apply_fft` from `src/unnamed/part_010` (mock revision): the same
`MIN_AMPLITUDE = 50` gate, then a rotating demo frequency; the static
`demo_counter` is threaded explicitly and is only advanced past the gate. -/
noncomputable def apply_fft_mock (demo_counter : ℕ) (samples : List ℤ) :
    ℝ × ℕ :=
  if maxAmp samples < 50 then (0, demo_counter)
  else (demo_frequencies.getD (demo_counter % 6) 0, demo_counter + 1)

/-! ## Theorems -/

/-- C4: `calculate_cents_offset` equals `1200·log2(detected/target)` for
strictly positive inputs, returns the defined fallback `0.0` when either
input is `≤ 0`, and on positive inputs is zero exactly when
`detected = target` and strictly increasing in `detected` for a fixed
`target`. -/
theorem calculate_cents_offset_spec :
    (∀ d t : ℝ, 0 < d → 0 < t →
      calculate_cents_offset d t = 1200 * Real.logb 2 (d / t)) ∧
    (∀ d t : ℝ, d ≤ 0 ∨ t ≤ 0 → calculate_cents_offset d t = 0) ∧
    (∀ d t : ℝ, 0 < d → 0 < t → (calculate_cents_offset d t = 0 ↔ d = t)) ∧
    (∀ d d' t : ℝ, 0 < t → 0 < d → d < d' →
      calculate_cents_offset d t < calculate_cents_offset d' t) := by
  have hpos : ∀ d t : ℝ, 0 < d → 0 < t →
      calculate_cents_offset d t = 1200 * Real.logb 2 (d / t) := by
    intro d t hd ht
    unfold calculate_cents_offset
    rw [if_neg]
    push_neg
    exact ⟨ht, hd⟩
  refine ⟨hpos, ?_, ?_, ?_⟩
  · intro d t h
    unfold calculate_cents_offset
    rw [if_pos h.symm]
  · intro d t hd ht
    rw [hpos d t hd ht]
    have hdt : 0 < d / t := div_pos hd ht
    constructor
    · intro h
      have h2 : Real.logb 2 (d / t) = 0 := by
        have := mul_eq_zero.mp h
        rcases this with h' | h'
        · norm_num at h'
        · exact h'
      rw [Real.logb_eq_zero] at h2
      have : d / t = 1 := by
        rcases h2 with h' | h' | h' | h' | h' | h'
        · norm_num at h'
        · norm_num at h'
        · norm_num at h'
        · exact absurd h' (ne_of_gt hdt)
        · exact h'
        · nlinarith [hdt]
      field_simp at this
      linarith
    · intro h
      subst h
      rw [div_self (ne_of_gt ht)]
      simp [Real.logb_one]
  · intro d d' t ht hd hdd
    rw [hpos d t hd ht, hpos d' t (lt_trans hd hdd) ht]
    have h1 : Real.logb 2 (d / t) < Real.logb 2 (d' / t) :=
      Real.logb_lt_logb (by norm_num) (div_pos hd ht) (by gcongr)
    nlinarith [h1]

/-- Witness for C4 at concrete inputs: 440 vs 440 is zero offset and the
offset grows from 220 to 440 against a 440 target. -/
theorem calculate_cents_offset_spec_witness :
    calculate_cents_offset 440 440 = 0 ∧
    calculate_cents_offset 220 440 < calculate_cents_offset 440 440 := by
  refine ⟨?_, ?_⟩
  · exact (calculate_cents_offset_spec.2.2.1 440 440 (by norm_num)
      (by norm_num)).mpr rfl
  · exact calculate_cents_offset_spec.2.2.2 220 440 440 (by norm_num)
      (by norm_num) (by norm_num)

/-- C5: with tolerance `T = 2` (src/src revision) and `T = 5` (unit-testing
revision), `get_tuning_direction c` is `"UP"` exactly when `c < -T`,
`"DOWN"` exactly when `c > T`, and `"IN_TUNE"` otherwise, so both boundary
values are classified `IN_TUNE`. -/
theorem get_tuning_direction_spec :
    ∀ c : ℝ,
      ((get_tuning_direction c = "UP" ↔ c < -2) ∧
       (get_tuning_direction c = "DOWN" ↔ 2 < c) ∧
       (get_tuning_direction c = "IN_TUNE" ↔ -2 ≤ c ∧ c ≤ 2)) ∧
      ((get_tuning_direction_utf c = "UP" ↔ c < -5) ∧
       (get_tuning_direction_utf c = "DOWN" ↔ 5 < c) ∧
       (get_tuning_direction_utf c = "IN_TUNE" ↔ -5 ≤ c ∧ c ≤ 5)) := by
  have hud : ("UP" : String) ≠ "DOWN" := by decide
  have hui : ("UP" : String) ≠ "IN_TUNE" := by decide
  have hdi : ("DOWN" : String) ≠ "IN_TUNE" := by decide
  intro c
  unfold get_tuning_direction get_tuning_direction_utf
  constructor
  · split_ifs with h1 h2 <;>
      refine ⟨⟨fun hs => ?_, fun hc => ?_⟩, ⟨fun hs => ?_, fun hc => ?_⟩,
        ⟨fun hs => ?_, fun hc => ?_⟩⟩ <;>
      first
        | assumption
        | rfl
        | exact absurd hs hud
        | exact absurd hs hui
        | exact absurd hs.symm hud
        | exact absurd hs hdi
        | exact absurd hs (by decide)
        | constructor <;> linarith
        | linarith [hc.1, hc.2]
        | linarith
  · split_ifs with h1 h2 <;>
      refine ⟨⟨fun hs => ?_, fun hc => ?_⟩, ⟨fun hs => ?_, fun hc => ?_⟩,
        ⟨fun hs => ?_, fun hc => ?_⟩⟩ <;>
      first
        | assumption
        | rfl
        | exact absurd hs hud
        | exact absurd hs hui
        | exact absurd hs.symm hud
        | exact absurd hs hdi
        | exact absurd hs (by decide)
        | constructor <;> linarith
        | linarith [hc.1, hc.2]
        | linarith

/-- C6: any `target_string` outside 1..6 makes `analyze_tuning` return
exactly the result of `analyze_tuning_auto`, in both revisions of
`string_detection.c`. -/
theorem analyze_tuning_fallback_spec :
    ∀ (f u : ℝ) (t : ℤ), t < 1 ∨ 6 < t →
      analyze_tuning f t u = analyze_tuning_auto f u ∧
      analyze_tuning_utf f t u = analyze_tuning_auto_utf f u := by
  intro f u t ht
  unfold analyze_tuning analyze_tuning_utf
  rw [if_pos ht, if_pos ht]
  exact ⟨rfl, rfl⟩

/-- Witness for C6: the spec's own example `analyze_tuning(440.0, 7)` agrees
with `analyze_tuning_auto(440.0)` (and likewise for string 0 and -1). -/
theorem analyze_tuning_fallback_spec_witness :
    (analyze_tuning 440 7 0 = analyze_tuning_auto 440 0 ∧
      analyze_tuning_utf 440 7 0 = analyze_tuning_auto_utf 440 0) ∧
    (analyze_tuning 440 0 0 = analyze_tuning_auto 440 0 ∧
      analyze_tuning_utf 440 0 0 = analyze_tuning_auto_utf 440 0) :=
  ⟨analyze_tuning_fallback_spec 440 0 7 (by norm_num),
   analyze_tuning_fallback_spec 440 0 0 (by norm_num)⟩

/-- C1: in the `src/src/string_detection.c` revision every non-positive
detected frequency yields direction `"UNKNOWN"` (in auto mode and in
targeted mode for every target string), but the
`Guitar Unit Testing Files/string_detection.c` revision has no such
override: its `analyze_tuning_auto(0.0)` reports `"IN_TUNE"` because
`calculate_cents_offset` returns `0.0` for the invalid input, contradicting
the claim (and that revision's own tests in `tuner_tests.c`). -/
theorem unknown_direction_spec :
    (∀ f u : ℝ, f ≤ 0 → (analyze_tuning_auto f u).direction = "UNKNOWN") ∧
    (∀ (f u : ℝ) (t : ℤ), f ≤ 0 →
      (analyze_tuning f t u).direction = "UNKNOWN") ∧
    (analyze_tuning_auto 0 0).direction = "UNKNOWN" ∧
    (analyze_tuning_auto_utf 0 0).direction = "IN_TUNE" := by
  have hauto : ∀ f u : ℝ, f ≤ 0 →
      (analyze_tuning_auto f u).direction = "UNKNOWN" := by
    intro f u hf
    show (if f ≤ 0 then "UNKNOWN" else _) = "UNKNOWN"
    rw [if_pos hf]
  refine ⟨hauto, ?_, hauto 0 0 le_rfl, ?_⟩
  · intro f u t hf
    unfold analyze_tuning
    by_cases ht : t < 1 ∨ 6 < t
    · rw [if_pos ht]
      exact hauto f u hf
    · rw [if_neg ht]
      show (if f ≤ 0 then "UNKNOWN" else _) = "UNKNOWN"
      rw [if_pos hf]
  · show get_tuning_direction_utf
      (calculate_cents_offset 0 (find_closest_string 0 0).2) = "IN_TUNE"
    have h0 : calculate_cents_offset 0 (find_closest_string 0 0).2 = 0 := by
      unfold calculate_cents_offset
      rw [if_pos (Or.inr le_rfl)]
    rw [h0]
    unfold get_tuning_direction_utf
    norm_num

/-- Witness for C1's universally quantified parts at concrete non-positive
frequencies. -/
theorem unknown_direction_spec_witness :
    (analyze_tuning_auto (-1) 0).direction = "UNKNOWN" ∧
    (analyze_tuning (-1) 3 0).direction = "UNKNOWN" :=
  ⟨unknown_direction_spec.1 (-1) 0 (by norm_num),
   unknown_direction_spec.2.1 (-1) 0 3 (by norm_num)⟩

/-- Closed form of `calculate_beep_interval` as the nested threshold tests
of the `beep_rates` walk (the final `(0.0, 0)` row always matches because
`fabs` is non-negative). -/
theorem calculate_beep_interval_eq (c : ℝ) :
    calculate_beep_interval c =
      if 100 ≤ |c| then 100
      else if 75 ≤ |c| then 150
      else if 50 ≤ |c| then 200
      else if 40 ≤ |c| then 300
      else if 25 ≤ |c| then 500
      else if 15 ≤ |c| then 800
      else if 5 ≤ |c| then 1200
      else 0 := by
  simp only [calculate_beep_interval, beep_rates, beepWalk]
  split_ifs <;> rfl

/-- C7 fails as stated: `|0| < |10|` but the beep interval grows from 0 ms
(in tune, no beep) to 1200 ms, so `calculate_beep_interval` is not
monotonically non-increasing in the magnitude across the in-tune boundary. -/
theorem beep_interval_monotone_counterexample :
    |(0 : ℝ)| < |(10 : ℝ)| ∧
      calculate_beep_interval 0 < calculate_beep_interval 10 := by
  have h0 : |(0 : ℝ)| = 0 := abs_zero
  have h10 : |(10 : ℝ)| = 10 := abs_of_nonneg (by norm_num)
  constructor
  · rw [h0, h10]; norm_num
  · rw [calculate_beep_interval_eq, calculate_beep_interval_eq, h0, h10]
    norm_num

set_option maxHeartbeats 1000000 in
/-- C7 amended: on the beeping side of the table (magnitude at least the
smallest threshold 5), `calculate_beep_interval` is monotonically
non-increasing in the magnitude of its argument, and every offset of
magnitude below 5 yields interval 0 (no beep). -/
theorem beep_interval_spec_amended :
    (∀ c c' : ℝ, 5 ≤ |c| → |c| < |c'| →
      calculate_beep_interval c' ≤ calculate_beep_interval c) ∧
    (∀ x : ℝ, |x| < 5 → calculate_beep_interval x = 0) := by
  constructor
  · intro c c' h5 hlt
    rw [calculate_beep_interval_eq, calculate_beep_interval_eq]
    split_ifs <;> first | (norm_num; done) | (exfalso; linarith)
  · intro x hx
    rw [calculate_beep_interval_eq]
    split_ifs <;> first | rfl | linarith

/-- Witness for C7's amended statement: 10 vs 30 cents on the beeping side,
and 2 cents inside the no-beep band. -/
theorem beep_interval_spec_amended_witness :
    calculate_beep_interval 30 ≤ calculate_beep_interval 10 ∧
      calculate_beep_interval 2 = 0 :=
  ⟨beep_interval_spec_amended.1 10 30
      (by rw [abs_of_nonneg (by norm_num : (0:ℝ) ≤ 10)]; norm_num)
      (by rw [abs_of_nonneg (by norm_num : (0:ℝ) ≤ 10),
        abs_of_nonneg (by norm_num : (0:ℝ) ≤ 30)]; norm_num),
   beep_interval_spec_amended.2 2
      (by rw [abs_of_nonneg (by norm_num : (0:ℝ) ≤ 2)]; norm_num)⟩

/-- The threshold walk returns from inside the table as soon as some row's
threshold is met. -/
theorem beepWalk_total (a : ℝ) (l : List (ℝ × ℕ)) (r : ℝ × ℕ)
    (hr : r ∈ l) (hra : r.1 ≤ a) : (beepWalk a l).isSome = true := by
  induction l with
  | nil => cases hr
  | cons x xs ih =>
    rw [beepWalk]
    by_cases hx : x.1 ≤ a
    · rw [if_pos hx]; rfl
    · rw [if_neg hx]
      rcases List.mem_cons.mp hr with h | h
      · exact absurd (h ▸ hra) hx
      · exact ih h

/-- C10: the threshold walk of `calculate_beep_interval` always returns
from inside the `beep_rates` table (the post-loop fallback is unreachable,
since the final threshold `0.0` is met by every `fabs` value), and the
result is always one of the eight table intervals. -/
theorem beep_interval_total_spec :
    ∀ c : ℝ,
      (beepWalk |c| beep_rates).isSome = true ∧
      calculate_beep_interval c ∈ [0, 100, 150, 200, 300, 500, 800, 1200] := by
  intro c
  have hmem : ((0 : ℝ), (0 : ℕ)) ∈ beep_rates := by
    unfold beep_rates
    exact List.mem_cons_of_mem _ (List.mem_cons_of_mem _
      (List.mem_cons_of_mem _ (List.mem_cons_of_mem _
      (List.mem_cons_of_mem _ (List.mem_cons_of_mem _
      (List.mem_cons_of_mem _ (List.mem_cons_self _ _)))))))
  constructor
  · exact beepWalk_total |c| beep_rates (0, 0) hmem (abs_nonneg c)
  · rw [calculate_beep_interval_eq]
    split_ifs <;> decide

/-- C9: the `part_011` revision of `apply_gain` maps each sample to the
truncated product saturated (hard-clipped) to the int16 range, and every
output sample lies in `[-32768, 32767]`; the `part_010` revision instead
casts to `int16_t` before its (dead) range checks, so the product
`20000 * 2.0` wraps around to `-25536` there while `part_011` saturates it
to `32767`. -/
theorem apply_gain_spec :
    (∀ (samples : List ℤ) (g : ℚ) (i : ℕ), i < samples.length →
      (apply_gain samples g).getD i 0 =
        max (-32768) (min 32767 (ratTruncZ ((samples.getD i 0 : ℤ) * g)))) ∧
    (∀ (samples : List ℤ) (g : ℚ) (x : ℤ), x ∈ apply_gain samples g →
      -32768 ≤ x ∧ x ≤ 32767) ∧
    apply_gain_v0 [20000] 2 = [-25536] ∧
    apply_gain [20000] 2 = [32767] := by
  have hclamp : ∀ z : ℤ,
      (if 32767 < z then (32767 : ℤ) else if z < -32768 then -32768 else z) =
        max (-32768) (min 32767 z) := by
    intro z
    split_ifs <;> omega
  have hprod : ((20000 : ℤ) : ℚ) * 2 = (40000 : ℚ) := by norm_num
  have htr : ratTruncZ (((20000 : ℤ) : ℚ) * 2) = 40000 := by
    rw [hprod]
    unfold ratTruncZ
    rw [if_neg (by norm_num : ¬((40000 : ℚ) < 0))]
    simp
  have hv0 : apply_gain_v0 [20000] 2 = [-25536] := by
    unfold apply_gain_v0
    simp only [List.map_cons, List.map_nil]
    rw [htr]
    norm_num [i16wrap]
  have hv1 : apply_gain [20000] 2 = [32767] := by
    unfold apply_gain
    simp only [List.map_cons, List.map_nil]
    rw [htr]
    norm_num
  refine ⟨?_, ?_, hv0, hv1⟩
  · intro samples g
    induction samples with
    | nil => intro i h; simp at h
    | cons s ss ih =>
      intro i h
      cases i with
      | zero =>
        show (if 32767 < ratTruncZ ((s : ℤ) * g) then (32767 : ℤ)
          else if ratTruncZ ((s : ℤ) * g) < -32768 then -32768
          else ratTruncZ ((s : ℤ) * g)) =
            max (-32768) (min 32767 (ratTruncZ ((s : ℤ) * g)))
        exact hclamp _
      | succ n =>
        have hn : n < ss.length := by simpa using h
        simpa [apply_gain] using ih n hn
  · intro samples g x hx
    unfold apply_gain at hx
    rcases List.mem_map.mp hx with ⟨s, _, hs⟩
    simp only at hs
    rw [← hs]
    split_ifs <;> omega

/-- Witness for C9's universally quantified parts at a concrete block. -/
theorem apply_gain_spec_witness :
    (apply_gain [20000] 2).getD 0 0 =
      max (-32768) (min 32767 (ratTruncZ (((20000 : ℤ) : ℚ) * 2))) ∧
    (-32768 ≤ (32767 : ℤ) ∧ (32767 : ℤ) ≤ 32767) :=
  ⟨apply_gain_spec.1 [20000] 2 0 (by norm_num),
   apply_gain_spec.2.1 [20000] 2 32767
     (by rw [apply_gain_spec.2.2.2]; exact List.mem_singleton.mpr rfl)⟩

/-- The amplitude-gate fold is below `n` exactly when `n` is positive and
every sample's absolute value is below `n`. -/
theorem maxAmp_lt_iff (samples : List ℤ) (n : ℕ) :
    maxAmp samples < n ↔ 0 < n ∧ ∀ s ∈ samples, s.natAbs < n := by
  have haux : ∀ (l : List ℤ) (a : ℕ),
      l.foldl (fun m s => max m s.natAbs) a < n ↔
        a < n ∧ ∀ s ∈ l, s.natAbs < n := by
    intro l
    induction l with
    | nil => intro a; simp
    | cons x xs ih =>
      intro a
      rw [List.foldl_cons, ih (max a x.natAbs)]
      constructor
      · rintro ⟨h1, h2⟩
        refine ⟨?_, ?_⟩
        · omega
        · intro s hs
          rcases List.mem_cons.mp hs with h | h
          · subst h; omega
          · exact h2 s h
      · rintro ⟨h1, h2⟩
        have hx := h2 x (List.mem_cons_self x xs)
        exact ⟨by omega, fun s hs => h2 s (List.mem_cons_of_mem x hs)⟩
  rw [maxAmp, haux]

/-- C3: whenever every sample's absolute amplitude is below
`MIN_AMPLITUDE = 50`, the real `apply_fft` of `part_011` returns exactly
`0.0` (for either state of the init flag) without reaching the windowed FFT
pipeline, and the mock `apply_fft` of `part_010` returns `0.0` without even
advancing its demo counter. -/
theorem apply_fft_weak_signal_spec :
    ∀ (inited : Bool) (samples : List ℤ) (c : ℕ),
      (∀ s ∈ samples, s.natAbs < 50) →
      apply_fft inited samples = 0 ∧ apply_fft_mock c samples = (0, c) := by
  intro inited samples c h
  have hmax : maxAmp samples < 50 := (maxAmp_lt_iff samples 50).mpr ⟨by omega, h⟩
  constructor
  · unfold apply_fft
    by_cases hi : inited = false
    · rw [if_pos hi]
    · rw [if_neg hi]
      by_cases he : samples = []
      · rw [if_pos he]
      · rw [if_neg he, if_pos hmax]
  · unfold apply_fft_mock
    rw [if_pos hmax]

/-- Witness for C3: a weak block (amplitude at most 10, as for a sine wave
of amplitude 10) yields detected frequency `0.0` in both revisions. -/
theorem apply_fft_weak_signal_spec_witness :
    apply_fft true [10, -10, 3, 0, 7] = 0 ∧
      apply_fft_mock 4 [10, -10, 3, 0, 7] = (0, 4) :=
  apply_fft_weak_signal_spec true [10, -10, 3, 0, 7] 4 (by decide)

/-- Characterisation of the peak-search fold over bins `1..n`: either no bin
ever beat the initial `(0, 0.0)` state (all scanned magnitudes are `≤ 0`),
or the state holds the lowest-index bin attaining the strict maximum. -/
theorem peakScan_fold_spec (mag : ℕ → ℝ) (n : ℕ) :
    ((List.range' 1 n).foldl (peakStep mag) (0, 0) = ((0 : ℕ), (0 : ℝ)) ∧
      ∀ i, 1 ≤ i → i ≤ n → mag i ≤ 0) ∨
    (1 ≤ ((List.range' 1 n).foldl (peakStep mag) (0, 0)).1 ∧
      ((List.range' 1 n).foldl (peakStep mag) (0, 0)).1 ≤ n ∧
      ((List.range' 1 n).foldl (peakStep mag) (0, 0)).2 =
        mag ((List.range' 1 n).foldl (peakStep mag) (0, 0)).1 ∧
      0 < ((List.range' 1 n).foldl (peakStep mag) (0, 0)).2 ∧
      (∀ i, 1 ≤ i → i ≤ n →
        mag i ≤ ((List.range' 1 n).foldl (peakStep mag) (0, 0)).2) ∧
      ∀ i, 1 ≤ i → i < ((List.range' 1 n).foldl (peakStep mag) (0, 0)).1 →
        mag i < ((List.range' 1 n).foldl (peakStep mag) (0, 0)).2) := by
  induction n with
  | zero =>
    left
    exact ⟨rfl, by omega⟩
  | succ n ih =>
    have hcat : List.range' 1 (n + 1) = List.range' 1 n ++ [1 + n] := by
      simpa using List.range'_1_concat 1 n
    rw [hcat, List.foldl_append]
    set r := (List.range' 1 n).foldl (peakStep mag) (0, 0) with hr
    simp only [List.foldl_cons, List.foldl_nil]
    rcases ih with ⟨heq, hall⟩ | ⟨h1, h2, h3, h4, h5, h6⟩
    · rw [heq]
      unfold peakStep
      by_cases hup : ((0 : ℕ), (0 : ℝ)).2 < mag (1 + n)
      · rw [if_pos hup]
        right
        refine ⟨by omega, by omega, rfl, by simpa using hup, ?_, ?_⟩
        · intro i hi1 hi2
          rcases Nat.lt_or_ge i (n + 1) with h | h
          · exact le_of_lt (lt_of_le_of_lt (hall i hi1 (by omega)) (by simpa using hup))
          · have : i = 1 + n := by omega
            rw [this]
        · intro i hi1 hi2
          exact lt_of_le_of_lt (hall i hi1 (by omega)) (by simpa using hup)
      · rw [if_neg hup]
        left
        refine ⟨rfl, ?_⟩
        intro i hi1 hi2
        rcases Nat.lt_or_ge i (n + 1) with h | h
        · exact hall i hi1 (by omega)
        · have : i = 1 + n := by omega
          rw [this]
          simpa using hup
    · unfold peakStep
      by_cases hup : r.2 < mag (1 + n)
      · rw [if_pos hup]
        right
        refine ⟨by omega, by omega, rfl, lt_trans h4 hup, ?_, ?_⟩
        · intro i hi1 hi2
          rcases Nat.lt_or_ge i (n + 1) with h | h
          · exact le_of_lt (lt_of_le_of_lt (h5 i hi1 (by omega)) hup)
          · have : i = 1 + n := by omega
            rw [this]
        · intro i hi1 hi2
          exact lt_of_le_of_lt (h5 i hi1 (by omega)) hup
      · rw [if_neg hup]
        right
        refine ⟨h1, by omega, h3, h4, ?_, h6⟩
        intro i hi1 hi2
        rcases Nat.lt_or_ge i (n + 1) with h | h
        · exact h5 i hi1 (by omega)
        · have : i = 1 + n := by omega
          rw [this]
          exact le_of_not_lt hup

/-- The peak-search fold reads only the magnitudes at the scanned indices. -/
theorem peakStep_foldl_congr (mag mag' : ℕ → ℝ) :
    ∀ (l : List ℕ) (acc : ℕ × ℝ), (∀ i ∈ l, mag i = mag' i) →
      l.foldl (peakStep mag) acc = l.foldl (peakStep mag') acc := by
  intro l
  induction l with
  | nil => intro acc _; rfl
  | cons x xs ih =>
    intro acc h
    simp only [List.foldl_cons]
    have hx : peakStep mag acc x = peakStep mag' acc x := by
      unfold peakStep
      rw [h x (List.mem_cons_self x xs)]
    rw [hx]
    exact ih _ fun i hi => h i (List.mem_cons_of_mem x hi)

/-- C2: `find_peak_frequency` (a) reads only bins `1..min(num_bins,
num_bins·2000/sample_rate)` — the DC bin 0 is never read and the search is
capped at the 2000 Hz limit; (b) returns `0.0` whenever every scanned bin's
magnitude is below the `0.5` gate; (c) otherwise returns
`peak_bin · sample_rate / FFT_SIZE` (with `FFT_SIZE = 256`) for the
lowest-index bin `peak_bin` attaining the running strict maximum. -/
theorem find_peak_frequency_spec (mag : ℕ → ℝ) (num_bins rate : ℕ)
    (hrate : 0 < rate) :
    (∀ mag' : ℕ → ℝ,
      (∀ i, 1 ≤ i → i ≤ search_limit num_bins rate → mag i = mag' i) →
      find_peak_frequency mag num_bins rate =
        find_peak_frequency mag' num_bins rate) ∧
    ((∀ i, 1 ≤ i → i < search_limit num_bins rate → mag i < 0.5) →
      find_peak_frequency mag num_bins rate = 0) ∧
    ((∃ i, 1 ≤ i ∧ i < search_limit num_bins rate ∧ 0.5 ≤ mag i) →
      ∃ b, 1 ≤ b ∧ b < search_limit num_bins rate ∧ 0.5 ≤ mag b ∧
        (∀ i, 1 ≤ i → i < search_limit num_bins rate → mag i ≤ mag b) ∧
        (∀ i, 1 ≤ i → i < b → mag i < mag b) ∧
        find_peak_frequency mag num_bins rate =
          (b : ℝ) * (rate : ℝ) / 256) := by
  set L := search_limit num_bins rate with hL
  refine ⟨?_, ?_, ?_⟩
  · intro mag' hagree
    unfold find_peak_frequency peakScan
    rw [← hL, peakStep_foldl_congr mag mag' (List.range' 1 (L - 1)) (0, 0)]
    intro i hi
    have hmem := List.mem_range'_1.mp hi
    exact hagree i hmem.1 (by omega)
  · intro hbelow
    unfold find_peak_frequency peakScan
    rw [← hL]
    rcases peakScan_fold_spec mag (L - 1) with ⟨heq, _⟩ | ⟨h1, h2, h3, _, _, _⟩
    · rw [heq]
      norm_num
    · rw [if_pos]
      rw [h3]
      exact hbelow _ h1 (by omega)
  · rintro ⟨i0, hi1, hi2, hi5⟩
    rcases peakScan_fold_spec mag (L - 1) with ⟨_, hall⟩ | ⟨h1, h2, h3, _, h5, h6⟩
    · exact absurd (hall i0 hi1 (by omega)) (by linarith)
    · refine ⟨((List.range' 1 (L - 1)).foldl (peakStep mag) (0, 0)).1,
        h1, by omega, ?_, ?_, ?_, ?_⟩
      · rw [← h3]
        calc (0.5 : ℝ) ≤ mag i0 := hi5
        _ ≤ _ := h5 i0 hi1 (by omega)
      · intro i hj1 hj2
        rw [← h3]
        exact h5 i hj1 (by omega)
      · intro i hj1 hj2
        rw [← h3]
        exact h6 i hj1 hj2
      · unfold find_peak_frequency peakScan
        rw [← hL, if_neg]
        push_neg
        calc (0.5 : ℝ) ≤ mag i0 := hi5
        _ ≤ _ := h5 i0 hi1 (by omega)

/-- Witness for C2: on an all-zero spectrum every scanned magnitude is below
the gate, so the detected frequency is `0.0` at 128 bins and 10 kHz. -/
theorem find_peak_frequency_spec_witness :
    find_peak_frequency (fun _ => 0) 128 10000 = 0 :=
  (find_peak_frequency_spec (fun _ => 0) 128 10000 (by norm_num)).2.1
    (by intro i h1 h2; norm_num)

/-- Characterisation of the nearest-entry fold over indices `0..n-1`: either
no entry came strictly within the initial `min_diff` (the state is
unchanged), or the state holds the lowest-index entry attaining the minimum
distance. -/
theorem minScan_fold_spec {β : Type} (dist : ℕ → ℝ) (out : ℕ → β)
    (d0 : ℝ) (b0 : β) (n : ℕ) :
    ((List.range n).foldl (minStep dist out) (d0, b0) = (d0, b0) ∧
      ∀ i, i < n → d0 ≤ dist i) ∨
    (∃ j, j < n ∧
      (List.range n).foldl (minStep dist out) (d0, b0) = (dist j, out j) ∧
      dist j < d0 ∧ (∀ i, i < n → dist j ≤ dist i) ∧
      ∀ i, i < j → dist j < dist i) := by
  induction n with
  | zero =>
    left
    exact ⟨rfl, by omega⟩
  | succ n ih =>
    rw [List.range_succ, List.foldl_append]
    simp only [List.foldl_cons, List.foldl_nil]
    rcases ih with ⟨heq, hall⟩ | ⟨j, hj, heq, hlt, hmin, hfirst⟩
    · rw [heq]
      unfold minStep
      by_cases hup : dist n < (d0, b0).1
      · rw [if_pos hup]
        right
        refine ⟨n, by omega, rfl, by simpa using hup, ?_, ?_⟩
        · intro i hi
          rcases Nat.lt_or_ge i n with h | h
          · exact le_of_lt (lt_of_lt_of_le (by simpa using hup) (hall i h))
          · have : i = n := by omega
            rw [this]
        · intro i hi
          exact lt_of_lt_of_le (by simpa using hup) (hall i hi)
      · rw [if_neg hup]
        left
        refine ⟨rfl, ?_⟩
        intro i hi
        rcases Nat.lt_or_ge i n with h | h
        · exact hall i h
        · have : i = n := by omega
          rw [this]
          simpa using le_of_not_lt hup
    · rw [heq]
      unfold minStep
      by_cases hup : dist n < (dist j, out j).1
      · rw [if_pos hup]
        right
        refine ⟨n, by omega, rfl, lt_trans (by simpa using hup) hlt, ?_, ?_⟩
        · intro i hi
          rcases Nat.lt_or_ge i n with h | h
          · exact le_of_lt (lt_of_lt_of_le (by simpa using hup) (hmin i h))
          · have : i = n := by omega
            rw [this]
        · intro i hi
          exact lt_of_lt_of_le (by simpa using hup) (hmin i hi)
      · rw [if_neg hup]
        right
        refine ⟨j, by omega, rfl, hlt, ?_, hfirst⟩
        intro i hi
        rcases Nat.lt_or_ge i n with h | h
        · exact hmin i h
        · have : i = n := by omega
          rw [this]
          simpa using le_of_not_lt hup

/-- C8 fails as stated: at 2000 Hz every string reference is at least the
initial `min_diff = 1000.0` away, the scan never updates, and
`find_closest_string` returns the `-1` sentinel rather than a string number
in 1..6 (and the caller's `*closest_freq` keeps its initial value). -/
theorem find_closest_string_sentinel_counterexample :
    (find_closest_string 2000 0).1 = -1 ∧
      ¬(1 ≤ (find_closest_string 2000 0).1 ∧
        (find_closest_string 2000 0).1 ≤ 6) := by
  have key : ∀ v : ℝ, 0 ≤ v → v ≤ 1000 → (1000 : ℝ) ≤ |2000 - v| := by
    intro v h0 h1
    rw [abs_of_nonneg (by linarith)]
    linarith
  have hfar : ∀ i, i < 6 → (1000 : ℝ) ≤ |(2000 : ℝ) - sfreq i| := by
    intro i hi
    interval_cases i <;>
      exact key _ (by norm_num [sfreq, string_frequencies])
        (by norm_num [sfreq, string_frequencies])
  have hres : find_closest_string 2000 0 = (-1, 0) := by
    unfold find_closest_string
    rcases minScan_fold_spec (fun i => |(2000 : ℝ) - sfreq i|)
        (fun i => ((i : ℤ) + 1, sfreq i)) 1000 ((-1 : ℤ), (0 : ℝ)) 6 with
      ⟨heq, _⟩ | ⟨j, hj, _, hlt, _, _⟩
    · rw [heq]
    · exact absurd hlt (not_lt.mpr (hfar j hj))
  rw [hres]
  refine ⟨rfl, ?_⟩
  rintro ⟨h1, _⟩
  norm_num at h1

/-- C8 amended: both nearest-entry lookups return the lowest-index entry
minimising `|freq - ref|` whenever some entry is strictly within the
initial `min_diff = 1000.0`; but for frequencies at distance `≥ 1000` from
every entry they return the `-1` sentinel (leaving the out-parameters at
their initial values) instead of a nearest entry. -/
theorem find_closest_spec_amended (f u : ℝ) (su : ℤ) :
    ((∃ i : ℕ, i < 6 ∧ |f - sfreq i| < 1000) →
      ∃ j : ℕ, j < 6 ∧ find_closest_string f u = ((j : ℤ) + 1, sfreq j) ∧
        (∀ i : ℕ, i < 6 → |f - sfreq j| ≤ |f - sfreq i|) ∧
        ∀ i : ℕ, i < j → |f - sfreq j| < |f - sfreq i|) ∧
    ((∀ i : ℕ, i < 6 → 1000 ≤ |f - sfreq i|) →
      find_closest_string f u = (-1, u)) ∧
    ((∃ i : ℕ, i < 33 ∧ |f - nfreq guitar_notes i| < 1000) →
      ∃ j : ℕ, j < 33 ∧ find_closest_note f u su =
          ((j : ℤ), nfreq guitar_notes j,
            (guitar_notes.getD j (0, "?", 0, 0)).2.2.1) ∧
        (∀ i : ℕ, i < 33 → |f - nfreq guitar_notes j| ≤ |f - nfreq guitar_notes i|) ∧
        ∀ i : ℕ, i < j → |f - nfreq guitar_notes j| < |f - nfreq guitar_notes i|) ∧
    ((∀ i : ℕ, i < 33 → 1000 ≤ |f - nfreq guitar_notes i|) →
      find_closest_note f u su = (-1, u, su)) := by
  have hlen : guitar_notes.length = 33 := rfl
  refine ⟨?_, ?_, ?_, ?_⟩
  · rintro ⟨i0, hi0, hd0⟩
    unfold find_closest_string
    rcases minScan_fold_spec (fun i => |f - sfreq i|)
        (fun i => ((i : ℤ) + 1, sfreq i)) 1000 ((-1 : ℤ), u) 6 with
      ⟨_, hall⟩ | ⟨j, hj, heq, _, hmin, hfirst⟩
    · exact absurd (hall i0 hi0) (by simpa using not_le.mpr hd0)
    · exact ⟨j, hj, by rw [heq], hmin, hfirst⟩
  · intro hfar
    unfold find_closest_string
    rcases minScan_fold_spec (fun i => |f - sfreq i|)
        (fun i => ((i : ℤ) + 1, sfreq i)) 1000 ((-1 : ℤ), u) 6 with
      ⟨heq, _⟩ | ⟨j, hj, _, hlt, _, _⟩
    · rw [heq]
    · exact absurd hlt (by simpa using not_lt.mpr (hfar j hj))
  · rintro ⟨i0, hi0, hd0⟩
    unfold find_closest_note find_closest_note_tbl
    rw [hlen]
    rcases minScan_fold_spec (fun i => |f - nfreq guitar_notes i|)
        (fun i => ((i : ℤ), nfreq guitar_notes i,
          (guitar_notes.getD i (0, "?", 0, 0)).2.2.1))
        1000 ((-1 : ℤ), u, su) 33 with
      ⟨_, hall⟩ | ⟨j, hj, heq, _, hmin, hfirst⟩
    · exact absurd (hall i0 hi0) (by simpa using not_le.mpr hd0)
    · exact ⟨j, hj, by rw [heq], hmin, hfirst⟩
  · intro hfar
    unfold find_closest_note find_closest_note_tbl
    rw [hlen]
    rcases minScan_fold_spec (fun i => |f - nfreq guitar_notes i|)
        (fun i => ((i : ℤ), nfreq guitar_notes i,
          (guitar_notes.getD i (0, "?", 0, 0)).2.2.1))
        1000 ((-1 : ℤ), u, su) 33 with
      ⟨heq, _⟩ | ⟨j, hj, _, hlt, _, _⟩
    · rw [heq]
    · exact absurd hlt (by simpa using not_lt.mpr (hfar j hj))

/-- Witness for C8's amended statement: at 440 Hz string entry 0 (329.63) is
within 1000, so the scan returns a nearest string with first-index
tie-break. -/
theorem find_closest_spec_amended_witness :
    ∃ j : ℕ, j < 6 ∧ find_closest_string 440 0 = ((j : ℤ) + 1, sfreq j) ∧
      (∀ i : ℕ, i < 6 → |(440 : ℝ) - sfreq j| ≤ |(440 : ℝ) - sfreq i|) ∧
      ∀ i : ℕ, i < j → |(440 : ℝ) - sfreq j| < |(440 : ℝ) - sfreq i| :=
  (find_closest_spec_amended 440 0 0).1
    ⟨0, by norm_num,
      by
        rw [show sfreq 0 = 329.63 from rfl,
          abs_of_nonneg (by norm_num : (0 : ℝ) ≤ 440 - 329.63)]
        norm_num⟩

/-- Witness for C5 at the boundary value 2 cents, classified `IN_TUNE` by
the 2-cent revision. -/
theorem get_tuning_direction_spec_witness :
    get_tuning_direction 2 = "IN_TUNE" :=
  (get_tuning_direction_spec 2).1.2.2.mpr ⟨by norm_num, le_rfl⟩

/-- Witness for C10 at 0 cents. -/
theorem beep_interval_total_spec_witness :
    (beepWalk |(0 : ℝ)| beep_rates).isSome = true ∧
      calculate_beep_interval 0 ∈ [0, 100, 150, 200, 300, 500, 800, 1200] :=
  beep_interval_total_spec 0

end Tuner
